import Mathlib

/-!
Verification development for the now-app repository: shallow embeddings of
the LLM analysis client (src/lib/groq.ts), the projects/steps list module
(src/components/ProjectsModule.tsx), the capture-session persistence pipeline
and focus-session logic (src/components/FocusModule.tsx and the
Supabase-backed FocusModule variant), and the auth hook (useAuth), together
with theorems settling the frozen claims about them.
-/

namespace NowApp

/-! ## Data model of the LLM analysis client (src/lib/groq.ts)

`AnalysisResult` mirrors the TypeScript interface.  The `status` and
`priority` fields are plain strings in the embedding because the TypeScript
union types are erased at runtime: `JSON.parse(content) as AnalysisResult`
performs no enum validation. -/

namespace Groq

structure ProjectOut where
  name : String
  description : String
  status : String
deriving Repr, DecidableEq

structure TaskOut where
  title : String
  description : String
  priority : String
  project_name : String
deriving Repr, DecidableEq

structure Insights where
  dreams : List String
  difficulties : List String
  goals : List String
deriving Repr, DecidableEq

structure AnalysisResult where
  projects : List ProjectOut
  tasks : List TaskOut
  insights : Insights
deriving Repr, DecidableEq

/-- The object produced by `JSON.parse(content)`.  The post-parse validation
in `analyzeTranscript` only checks `parsed.projects` and `parsed.tasks` for
presence, so those two top-level fields are `Option`s here; a missing
`insights` field is never checked by the code, so it is modelled as the
value the later pipeline reads (an absent field would read as an arbitrary
value there). -/
structure ParsedContent where
  projects : Option (List ProjectOut)
  tasks : Option (List TaskOut)
  insights : Insights
deriving Repr, DecidableEq

/-- Outcome of the `fetch` call and response handling inside the `try` block
of `analyzeTranscript` (src/lib/groq.ts lines 63-111). -/
inductive FetchOutcome where
  /-- the `fetch` promise rejected (network error) -/
  | networkError
  /-- `response.ok` is false (non-2xx status) -/
  | badStatus (status : Nat)
  /-- `data.choices[0]?.message?.content` is missing or empty -/
  | emptyContent
  /-- `JSON.parse(content)` threw (unparsable JSON) -/
  | badJson
  /-- `JSON.parse(content)` succeeded with this object -/
  | content (p : ParsedContent)
deriving Repr, DecidableEq

/-- The canned fallback returned from the `catch` block
(src/lib/groq.ts lines 116-120). -/
def fallbackResult : AnalysisResult :=
  { projects := [{ name := "Nuevo Proyecto", description := "Generado automáticamente",
                   status := "active" }]
    tasks := [{ title := "Comenzar planificación", description := "Tarea inicial sugerida",
                priority := "medium", project_name := "Nuevo Proyecto" }]
    insights := { dreams := [], difficulties := [], goals := [] } }

/-- Body of the `try` block: every failure is a thrown error (`Except.error`),
a fully validated parse is returned. -/
def tryBody (outcome : FetchOutcome) : Except String AnalysisResult :=
  match outcome with
  | .networkError => .error "FETCH_FAILED"
  | .badStatus s => .error ("Groq API Error: " ++ toString s)
  | .emptyContent => .error "Groq devolvió una respuesta vacía"
  | .badJson => .error "JSON_PARSE_ERROR"
  | .content p =>
      match p.projects, p.tasks with
      | some ps, some ts => .ok { projects := ps, tasks := ts, insights := p.insights }
      | some _, none => .error "JSON recibido tiene una estructura incompleta"
      | none, _ => .error "JSON recibido tiene una estructura incompleta"

/-- `analyzeTranscript` (src/lib/groq.ts lines 26-122).  `apiKey` models
`import.meta.env.VITE_GROQ_API_KEY` (`none` = undefined); the guard
`if (!apiKey)` is falsy for both undefined and the empty string.  The
CONFIG_ERROR throw sits before the `try` block, so it is not converted into
the fallback; every error raised inside the `try` is caught and replaced by
`fallbackResult`.  The transcript `text` only feeds the prompt string. -/
def analyzeTranscript (text : String) (apiKey : Option String) (outcome : FetchOutcome) :
    Except String AnalysisResult :=
  let _ := text
  if (apiKey.getD "").isEmpty then
    .error "CONFIG_ERROR: API Key not found"
  else
    match tryBody outcome with
    | .ok r => .ok r
    | .error _ => .ok fallbackResult

end Groq

/-! ## Projects/steps list module (src/components/ProjectsModule.tsx)

A shallow embedding of the component state that the claimed handlers read
and write: the optimistic `projects` array, the single-slot `lastDeleted`
record, the toast visibility flag, and the editing/adding text fields.
All handlers in this module are purely local (no remote call appears in
this component). -/

namespace ProjectsModule

/-- `Step` from src/types.ts. -/
structure Step where
  id : String
  order : Nat
  title : String
  isDone : Bool
deriving Repr, DecidableEq

/-- `Project` from src/types.ts. -/
structure Project where
  id : String
  title : String
  colorClass : String
  steps : List Step
deriving Repr, DecidableEq

/-- The single-slot record saved by `handleDeleteTask` for undo. -/
structure LastDeleted where
  projectId : String
  task : Step
  index : Nat
deriving Repr, DecidableEq

/-- Component state touched by the claimed handlers. -/
structure ModuleState where
  projects : List Project
  lastDeleted : Option LastDeleted
  toastVisible : Bool
  editingId : Option String
  tempText : String
  addingTaskToProjectId : Option String
  newTaskText : String
deriving Repr, DecidableEq

/-- JavaScript `String.prototype.trim()`: strip leading and trailing
whitespace. -/
def jsTrim (s : String) : String :=
  ⟨((s.data.dropWhile Char.isWhitespace).reverse.dropWhile Char.isWhitespace).reverse⟩

/-- JavaScript `arr.findIndex(p)`: index of the first match, `none` for the
sentinel -1. -/
def findIndex (p : α → Bool) : List α → Option Nat
  | [] => none
  | a :: l => if p a then some 0 else (findIndex p l).map (· + 1)

/-- JavaScript `arr.splice(n, 0, a)` clamps the start index to the array
length, so an out-of-range index appends at the end. -/
def spliceInsert (l : List α) (n : Nat) (a : α) : List α :=
  l.insertIdx (min n l.length) a

/-- The same-list reorder performed by `handleDragEnter`
(src/components/ProjectsModule.tsx lines 143-145 for projects,
162-164 for steps): `splice(i, 1)` removes the dragged item, then
`splice(j, 0, item)` reinserts it at the target index.  The render supplies
in-range indices; the guard on `l[i]?` covers the impossible out-of-range
pick. -/
def spliceMove (l : List α) (i j : Nat) : List α :=
  match l[i]? with
  | none => l
  | some item => spliceInsert (l.eraseIdx i) j item

/-- Drag payload (`DragItem` in src/components/ProjectsModule.tsx). -/
inductive DragItem where
  | project (index : Nat)
  | task (projectId : String) (index : Nat)
deriving Repr, DecidableEq

/-- The cross-project branch of `handleDragEnter`
(src/components/ProjectsModule.tsx lines 173-188).  The code finds the
source and destination project objects and mutates them in place, which
updates the first match of each id; the embedding therefore locates the
first matching indices and `set`s them.  `item` is captured before the
removal, the source list drops index `i` (`filter idx ≠ i`), and the
destination list receives it by `splice(j, 0, item)`. -/
def crossMove (projects : List Project) (spid dpid : String) (i j : Nat) : List Project :=
  match findIndex (fun p => p.id == spid) projects, findIndex (fun p => p.id == dpid) projects with
  | some si, some di =>
      match projects[si]?, projects[di]? with
      | some sp, some dp =>
          match sp.steps[i]? with
          | some item =>
              (projects.set si { sp with steps := sp.steps.eraseIdx i }).set di
                { dp with steps := spliceInsert dp.steps j item }
          | none => projects
      | _, _ => projects
  | _, _ => projects

/-- `handleDragEnter` (src/components/ProjectsModule.tsx lines 134-190),
given the current drag item and the entered target.  Returns the new
projects array and the new drag item; mismatched kinds and same-index
reorders are no-ops. -/
def handleDragEnter (projects : List Project) (dragItem target : DragItem) :
    List Project × DragItem :=
  match dragItem, target with
  | .project i, .project j =>
      if i == j then (projects, .project i)
      else (spliceMove projects i j, .project j)
  | .task spid i, .task dpid j =>
      if spid == dpid then
        if i == j then (projects, .task spid i)
        else
          (projects.map (fun p =>
            if p.id == spid then { p with steps := spliceMove p.steps i j } else p),
           .task spid j)
      else (crossMove projects spid dpid i j, .task dpid j)
  | _, _ => (projects, dragItem)

/-- `handleDeleteTask` (src/components/ProjectsModule.tsx lines 232-253):
find the project and the index of the task, record the single-slot
`lastDeleted`, remove the task from that project by id, and show the undo
toast (its 4-second timer is the separate `toastTimeout` event).  When the
project or the task is not found the guard fails and nothing happens. -/
def handleDeleteTask (s : ModuleState) (projectId taskId : String) : ModuleState :=
  match s.projects.find? (fun p => p.id == projectId) with
  | none => s
  | some project =>
      match findIndex (fun st => st.id == taskId) project.steps with
      | none => s
      | some taskIndex =>
          match project.steps[taskIndex]? with
          | none => s
          | some task =>
              { s with
                lastDeleted := some { projectId := projectId, task := task, index := taskIndex }
                projects := s.projects.map (fun p =>
                  if p.id == projectId then
                    { p with steps := p.steps.filter (fun st => st.id != taskId) }
                  else p)
                toastVisible := true }

/-- The 4-second toast timer firing (src/components/ProjectsModule.tsx
lines 249-251): it only hides the toast; the `lastDeleted` record is kept. -/
def toastTimeout (s : ModuleState) : ModuleState :=
  { s with toastVisible := false }

/-- `handleUndo` (src/components/ProjectsModule.tsx lines 255-269): if a
`lastDeleted` record exists, reinsert the very same retained step (its
identifier included) at the recorded index via `splice`, hide the toast and
clear the slot.  No remote call of any kind is made. -/
def handleUndo (s : ModuleState) : ModuleState :=
  match s.lastDeleted with
  | none => s
  | some ld =>
      { s with
        projects := s.projects.map (fun p =>
          if p.id == ld.projectId then { p with steps := spliceInsert p.steps ld.index ld.task }
          else p)
        toastVisible := false
        lastDeleted := none }

/-- A press on the undo affordance.  The toast container carries
`pointer-events-none` together with zero opacity whenever `toastVisible` is
false (src/components/ProjectsModule.tsx line 480), so a press reaches
`handleUndo` only while the toast is visible. -/
def undoClick (s : ModuleState) : ModuleState :=
  if s.toastVisible then handleUndo s else s

/-- `handleSaveEdit` (src/components/ProjectsModule.tsx lines 203-224):
a blank (empty or whitespace-only) `tempText` only exits editing mode;
otherwise the project title, or the step title when `taskId` is given, is
set to `tempText`. -/
def handleSaveEdit (s : ModuleState) (projectId : String) (taskId : Option String) :
    ModuleState :=
  if (jsTrim s.tempText).isEmpty then
    { s with editingId := none }
  else
    { s with
      projects := s.projects.map (fun p =>
        if p.id == projectId then
          match taskId with
          | none => { p with title := s.tempText }
          | some tid =>
              { p with steps := p.steps.map (fun st =>
                  if st.id == tid then { st with title := s.tempText } else st) }
        else p)
      editingId := none }

/-- `submitNewTask` (src/components/ProjectsModule.tsx lines 276-292):
a non-blank `newTaskText` appends a new step (id from `Date.now()`,
modelled by the `newId` parameter, order 99); in both branches the adding
mode is exited. -/
def submitNewTask (s : ModuleState) (projectId : String) (newId : String) : ModuleState :=
  let s1 :=
    if (jsTrim s.newTaskText).isEmpty then s
    else
      { s with projects := s.projects.map (fun p =>
          if p.id == projectId then
            { p with steps := p.steps ++ [{ id := newId, order := 99,
                                            title := s.newTaskText, isDone := false }] }
          else p) }
  { s1 with addingTaskToProjectId := none }

end ProjectsModule

/-! ## Capture-session persistence (`processAI` in src/components/FocusModule.tsx,
lines 966-1044)

`processAI` fans the analysis result out into sequential Supabase inserts:
first every project (collecting the ids assigned by the store into
`projectMap`), then every task (resolving `project_id` through the map),
then the transcript row and the history row.  The embedding records that
sequence as a trace of insert operations; `assign` gives, positionally, the
id the store assigned to each project insert (`none` when the insert
errored, in which case the code logs and stores nothing in the map). -/

namespace ProcessAI

/-- One remote insert issued by `processAI`, in issue order. -/
inductive InsertOp where
  | project (userId name description status : String)
  | task (userId : String) (projectId : Option String)
         (title description priority status : String)
  | transcriptRow (userId rawText : String) (processed : Bool)
  | history (userId actionName : String)
deriving Repr, DecidableEq

/-- Is the op a project insert? -/
def InsertOp.isProject : InsertOp → Bool
  | .project _ _ _ _ => true
  | _ => false

/-- Is the op a task insert? -/
def InsertOp.isTask : InsertOp → Bool
  | .task _ _ _ _ _ _ => true
  | _ => false

/-- `projectMap` after the project loop: a `Map.set` per successful insert,
keyed by project name, later writes overriding earlier ones.  The
association list keeps the most recent binding first, so `List.lookup`
(first match) returns exactly what `Map.get` returns. -/
def buildProjectMap : List Groq.ProjectOut → List (Option String) → List (String × String)
  | [], _ => []
  | _, [] => []
  | p :: ps, r :: rs =>
      buildProjectMap ps rs ++ (match r with | some id => [(p.name, id)] | none => [])

/-- `t.project_name ? projectMap.get(t.project_name) : null`
(src/components/FocusModule.tsx line 1001): an empty `project_name` is
falsy and short-circuits to null; otherwise the map is consulted and a miss
yields undefined — both are `none`. -/
def resolveProjectId (m : List (String × String)) (t : Groq.TaskOut) : Option String :=
  if t.project_name == "" then none else m.lookup t.project_name

/-- The full insert trace of one `processAI` run, in issue order: all
project inserts, then all task inserts (resolved against the completed
map), then the transcript row and the session-history row. -/
def processAITrace (uid transcript : String) (r : Groq.AnalysisResult)
    (assign : List (Option String)) : List InsertOp :=
  (r.projects.map fun p => .project uid p.name p.description p.status)
    ++ (r.tasks.map fun t =>
        .task uid (resolveProjectId (buildProjectMap r.projects assign) t)
          t.title t.description t.priority "todo")
    ++ [.transcriptRow uid transcript true, .history uid "voice_recording_processed"]

end ProcessAI

/-! ## Focus session display states and task completion
(Supabase-backed FocusModule; mirrored by src/components/FocusModule.tsx
lines 99-106 and the variant at src/components/ProjectsModule.tsx lines
687-979) -/

namespace FocusSession

/-- A remote `projects` row (columns the claims touch). -/
structure ProjectRow where
  id : String
  user_id : String
  name : String
deriving Repr, DecidableEq

/-- A remote `tasks` row (columns the claims touch). -/
structure TaskRow where
  id : String
  user_id : String
  project_id : Option String
  status : String
deriving Repr, DecidableEq

/-- The remote store state the completion path reads and writes. -/
structure DB where
  projects : List ProjectRow
  tasks : List TaskRow
deriving Repr, DecidableEq

/-- A focus task as rendered in a bucket (src/types.ts `Task`; only the
fields the display logic reads are relevant, but the shape is kept). -/
structure FocusTask where
  id : String
  title : String
  project : String
deriving Repr, DecidableEq

/-- `isHoyEmpty` (FocusModule line 100 / ProjectsModule variant line 801):
the empty-initial display state, defined only for the "Hoy" bucket. -/
def isHoyEmpty (selectedProject : String) (currentProjectTasks : List FocusTask)
    (totalInitialTasks : Nat) : Bool :=
  selectedProject == "Hoy" && currentProjectTasks.length == 0 && totalInitialTasks == 0

/-- `isProjectCompleted` (FocusModule line 103 / ProjectsModule variant
line 802): the terminal completed display state. -/
def isProjectCompleted (selectedProject : String) (currentProjectTasks : List FocusTask)
    (totalInitialTasks : Nat) : Bool :=
  !(isHoyEmpty selectedProject currentProjectTasks totalInitialTasks)
    && currentProjectTasks.length == 0 && decide (0 < totalInitialTasks)

/-- The per-bucket initial counts computed by `fetchData` (ProjectsModule
variant lines 735-755): "Hoy" starts at zero and every project row gets the
number of its fetched todo tasks — possibly zero for a project with no
remaining todo tasks. -/
def fetchCounts (projectsData : List ProjectRow) (tasksData : List TaskRow) :
    List (String × Nat) :=
  ("Hoy", 0) :: projectsData.map (fun p =>
    (p.name, ((tasksData.filter (fun t => t.status == "todo")).filter
      (fun t => t.project_id == some p.id)).length))

/-- The remote half of `completeTask` (ProjectsModule variant lines
898-979): delete the completed task row by id; look the project up by
`(user_id, name)` with `.single()` (which yields a row only when exactly
one matches); count the remaining task rows whose `project_id` is that
project id (no status filter in the count query); delete the project row
when the count is zero. -/
def completeTaskRemote (db : DB) (uid taskId projectName : String) : DB :=
  let tasks1 := db.tasks.filter (fun t => t.id != taskId)
  match db.projects.filter (fun p => p.user_id == uid && p.name == projectName) with
  | [rec] =>
      let cnt := (tasks1.filter (fun t => t.project_id == some rec.id)).length
      if cnt == 0 then
        { projects := db.projects.filter (fun p => p.id != rec.id), tasks := tasks1 }
      else
        { projects := db.projects, tasks := tasks1 }
  | _ => { projects := db.projects, tasks := tasks1 }

end FocusSession

/-! ## Auth hook (`useAuth`, src/unnamed/part_002) -/

namespace UseAuth

/-- An error reported by the Supabase auth subsystem in the `error` field of
its result object (supabase-js resolves with `\x7b error \x7d` rather than
rejecting). -/
structure AuthError where
  message : String
deriving Repr, DecidableEq

/-- `signIn` (part_002 lines 66-69): destructures `error` from
`signInWithPassword` and rethrows it. -/
def signIn (remote : Option AuthError) : Except AuthError Unit :=
  match remote with
  | some e => .error e
  | none => .ok ()

/-- `signUp` (part_002 lines 71-74): destructures `error` from
`auth.signUp` and rethrows it. -/
def signUp (remote : Option AuthError) : Except AuthError Unit :=
  match remote with
  | some e => .error e
  | none => .ok ()

/-- `signOut` (part_002 lines 76-78): awaits `auth.signOut()` without
reading its result object, so a reported error is dropped. -/
def signOut (remote : Option AuthError) : Except AuthError Unit :=
  let _ := remote
  .ok ()

end UseAuth

/-! ## Theorems -/

/-! ### Helper lemmas about the JavaScript array-operation embeddings -/

theorem perm_insertIdx (a : α) : ∀ (n : Nat) (l : List α), n ≤ l.length →
    (l.insertIdx n a).Perm (a :: l)
  | 0, l, _ => by
      rw [List.insertIdx_zero]
  | n + 1, [], h => by
      simp at h
  | n + 1, b :: l, h => by
      rw [List.insertIdx_succ_cons]
      exact ((perm_insertIdx a n l (Nat.le_of_succ_le_succ h)).cons b).trans
        (List.Perm.swap a b l)

theorem perm_cons_eraseIdx : ∀ (l : List α) (i : Nat) (a : α), l[i]? = some a →
    l.Perm (a :: l.eraseIdx i)
  | [], i, a, h => by simp at h
  | b :: l, 0, a, h => by
      simp only [List.getElem?_cons_zero, Option.some.injEq] at h
      subst h
      exact List.Perm.refl _
  | b :: l, i + 1, a, h => by
      rw [List.getElem?_cons_succ] at h
      rw [List.eraseIdx_cons_succ]
      exact ((perm_cons_eraseIdx l i a h).cons b).trans (List.Perm.swap a b _)

theorem spliceInsert_perm (l : List α) (n : Nat) (a : α) :
    (ProjectsModule.spliceInsert l n a).Perm (a :: l) :=
  perm_insertIdx a (min n l.length) l (Nat.min_le_right n l.length)

theorem spliceInsert_of_le (l : List α) (n : Nat) (a : α) (h : n ≤ l.length) :
    ProjectsModule.spliceInsert l n a = l.insertIdx n a := by
  unfold ProjectsModule.spliceInsert
  rw [Nat.min_eq_left h]

theorem getElem?_spliceInsert_self (l : List α) (n : Nat) (a : α) (h : n ≤ l.length) :
    (ProjectsModule.spliceInsert l n a)[n]? = some a := by
  rw [spliceInsert_of_le l n a h]
  have hn : n < (l.insertIdx n a).length := by
    rw [List.length_insertIdx n l h]
    omega
  rw [List.getElem?_eq_getElem hn, List.getElem_insertIdx_self l a n h]

theorem spliceMove_perm (l : List α) (i j : Nat) :
    (ProjectsModule.spliceMove l i j).Perm l := by
  cases h : l[i]? with
  | none =>
      simp only [ProjectsModule.spliceMove, h]
      exact List.Perm.refl l
  | some a =>
      have heq : ProjectsModule.spliceMove l i j =
          ProjectsModule.spliceInsert (l.eraseIdx i) j a := by
        simp only [ProjectsModule.spliceMove, h]
      rw [heq]
      exact (spliceInsert_perm (l.eraseIdx i) j a).trans (perm_cons_eraseIdx l i a h).symm

theorem spliceMove_spec (l : List α) (i j : Nat) (a : α) (hj : j < l.length)
    (hi : l[i]? = some a) :
    (ProjectsModule.spliceMove l i j)[j]? = some a ∧
    (ProjectsModule.spliceMove l i j).eraseIdx j = l.eraseIdx i ∧
    (ProjectsModule.spliceMove l i j).Perm l := by
  have hilen : i < l.length := (List.getElem?_eq_some_iff.mp hi).1
  have hjlen : j ≤ (l.eraseIdx i).length := by
    rw [List.length_eraseIdx l i]
    simp only [hilen, if_pos]
    omega
  have heq : ProjectsModule.spliceMove l i j =
      ProjectsModule.spliceInsert (l.eraseIdx i) j a := by
    simp only [ProjectsModule.spliceMove, hi]
  refine ⟨?_, ?_, spliceMove_perm l i j⟩
  · rw [heq]
    exact getElem?_spliceInsert_self (l.eraseIdx i) j a hjlen
  · rw [heq, spliceInsert_of_le (l.eraseIdx i) j a hjlen, List.eraseIdx_insertIdx j (l.eraseIdx i)]

theorem findIndex_some_spec (p : α → Bool) :
    ∀ (l : List α) (i : Nat), ProjectsModule.findIndex p l = some i →
      ∃ a, l[i]? = some a ∧ p a = true
  | [], i, h => by simp [ProjectsModule.findIndex] at h
  | b :: l, i, h => by
      by_cases hb : p b
      · simp only [ProjectsModule.findIndex, hb, if_pos, Option.some.injEq] at h
        subst h
        exact ⟨b, List.getElem?_cons_zero, hb⟩
      · simp only [ProjectsModule.findIndex, hb, Bool.false_eq_true, if_neg,
          not_false_iff] at h
        cases hfi : ProjectsModule.findIndex p l with
        | none => rw [hfi] at h; simp at h
        | some i0 =>
            rw [hfi] at h
            simp only [Option.map_some', Option.some.injEq] at h
            subst h
            obtain ⟨a, ha, hpa⟩ := findIndex_some_spec p l i0 hfi
            exact ⟨a, by rwa [List.getElem?_cons_succ], hpa⟩

theorem set_of_getElem? : ∀ (l : List β) (k : Nat) (v : β), l[k]? = some v →
    l.set k v = l
  | [], _, _, h => by simp at h
  | a :: l, 0, v, h => by
      rw [List.getElem?_cons_zero, Option.some.injEq] at h
      rw [List.set_cons_zero, h]
  | a :: l, k + 1, v, h => by
      rw [List.getElem?_cons_succ] at h
      rw [List.set_cons_succ, set_of_getElem? l k v h]

theorem flatten_extract : ∀ (L : List (List β)) (k : Nat) (A : List β), L[k]? = some A →
    L.flatten.Perm (A ++ (L.set k ([] : List β)).flatten)
  | [], _, _, h => by simp at h
  | B :: L, 0, A, h => by
      rw [List.getElem?_cons_zero, Option.some.injEq] at h
      subst h
      rw [List.set_cons_zero, List.flatten_cons, List.flatten_cons, List.nil_append]
  | B :: L, k + 1, A, h => by
      rw [List.getElem?_cons_succ] at h
      rw [List.set_cons_succ, List.flatten_cons, List.flatten_cons]
      have ih := flatten_extract L k A h
      have s1 := List.Perm.append_left B ih
      have s2 : (B ++ (A ++ (L.set k ([] : List β)).flatten)).Perm
          (A ++ (B ++ (L.set k ([] : List β)).flatten)) := by
        rw [← List.append_assoc, ← List.append_assoc]
        exact List.Perm.append_right _ List.perm_append_comm
      exact s1.trans s2

theorem flatten_set2_perm (L : List (List β)) (si di : Nat) (A B A2 B2 : List β)
    (hne : si ≠ di) (hA : L[si]? = some A) (hB : L[di]? = some B)
    (hperm : (A2 ++ B2).Perm (A ++ B)) :
    ((L.set si A2).set di B2).flatten.Perm L.flatten := by
  obtain ⟨hsilen, -⟩ := List.getElem?_eq_some_iff.mp hA
  obtain ⟨hdilen, -⟩ := List.getElem?_eq_some_iff.mp hB
  have h1 : ((L.set si A2).set di B2)[di]? = some B2 := by
    rw [List.getElem?_set, if_pos rfl, List.length_set, if_pos hdilen]
  have h2 : ((L.set si A2).set di ([] : List β))[si]? = some A2 := by
    rw [List.getElem?_set, if_neg (Ne.symm hne), List.getElem?_set, if_pos rfl,
      if_pos hsilen]
  have h3 : (L.set si ([] : List β))[di]? = some B := by
    rw [List.getElem?_set, if_neg hne]
    exact hB
  have e1 : ((L.set si A2).set di B2).set di ([] : List β) =
      (L.set si A2).set di ([] : List β) := List.set_set _ _ _ _
  have e2 : ((L.set si A2).set di ([] : List β)).set si ([] : List β) =
      (L.set si ([] : List β)).set di ([] : List β) := by
    rw [List.set_comm _ _ _ (Ne.symm hne), List.set_set]
  have cM1 := flatten_extract ((L.set si A2).set di B2) di B2 h1
  rw [e1] at cM1
  have cM2 := flatten_extract ((L.set si A2).set di ([] : List β)) si A2 h2
  rw [e2] at cM2
  have cL1 := flatten_extract L si A hA
  have cL2 := flatten_extract (L.set si ([] : List β)) di B h3
  have t2 := cM1.trans (List.Perm.append_left B2 cM2)
  have t3 : (B2 ++ (A2 ++ ((L.set si ([] : List β)).set di ([] : List β)).flatten)).Perm
      ((A ++ B) ++ ((L.set si ([] : List β)).set di ([] : List β)).flatten) := by
    rw [← List.append_assoc]
    exact List.Perm.append_right _ (List.perm_append_comm.trans hperm)
  have t4 : ((A ++ B) ++ ((L.set si ([] : List β)).set di ([] : List β)).flatten).Perm
      L.flatten := by
    rw [List.append_assoc]
    exact (List.Perm.append_left A cL2.symm).trans cL1.symm
  exact t2.trans (t3.trans t4)

theorem flatMap_map_steps_perm (f : ProjectsModule.Project → ProjectsModule.Project)
    (hf : ∀ p, ((f p).steps).Perm p.steps) :
    ∀ (l : List ProjectsModule.Project),
      ((l.map f).flatMap ProjectsModule.Project.steps).Perm
        (l.flatMap ProjectsModule.Project.steps)
  | [] => List.Perm.refl _
  | p :: l => by
      rw [List.map_cons, List.flatMap_cons, List.flatMap_cons]
      exact (hf p).append (flatMap_map_steps_perm f hf l)

theorem map_id_guarded (key : String)
    (g : ProjectsModule.Project → ProjectsModule.Project)
    (hg : ∀ q, (g q).id = q.id) (l : List ProjectsModule.Project) :
    (l.map (fun p => if p.id == key then g p else p)).map ProjectsModule.Project.id =
      l.map ProjectsModule.Project.id := by
  rw [List.map_map]
  apply List.map_congr_left
  intro p _
  by_cases hp : (p.id == key) = true
  · simp only [Function.comp_apply, if_pos hp, hg]
  · rw [Bool.not_eq_true] at hp
    simp only [Function.comp_apply, hp, Bool.false_eq_true, if_neg, not_false_iff]

theorem nodup_find?_unique :
    ∀ (l : List ProjectsModule.Project) (pid : String) (proj : ProjectsModule.Project),
      (l.map ProjectsModule.Project.id).Nodup →
      l.find? (fun p => p.id == pid) = some proj →
      ∀ p ∈ l, p.id = pid → p = proj
  | [], _, _, _, hfind => by simp at hfind
  | a :: l, pid, proj, hnd, hfind => by
      intro p hp hpid
      rw [List.map_cons, List.nodup_cons] at hnd
      by_cases ha : (a.id == pid) = true
      · have hpa : proj = a := by
          rw [List.find?_cons, ha] at hfind
          exact (Option.some.injEq _ _ ▸ hfind.symm)
        subst hpa
        rcases List.mem_cons.mp hp with rfl | hmem
        · rfl
        · exfalso
          apply hnd.1
          rw [beq_iff_eq] at ha
          rw [ha, ← hpid]
          exact List.mem_map.mpr ⟨p, hmem, rfl⟩
      · rw [List.find?_cons] at hfind
        rw [Bool.not_eq_true] at ha
        rw [ha] at hfind
        rcases List.mem_cons.mp hp with rfl | hmem
        · exfalso
          rw [hpid] at ha
          simp at ha
        · exact nodup_find?_unique l pid proj hnd.2 hfind p hmem hpid

theorem filter_spliceInsert_restore (tid : String) :
    ∀ (l : List ProjectsModule.Step) (i : Nat) (task : ProjectsModule.Step),
      ProjectsModule.findIndex (fun st => st.id == tid) l = some i →
      l[i]? = some task →
      (l.map ProjectsModule.Step.id).Nodup →
      ProjectsModule.spliceInsert (l.filter (fun st => st.id != tid)) i task = l
  | [], i, task, hfi, _, _ => by simp [ProjectsModule.findIndex] at hfi
  | a :: l, i, task, hfi, hget, hnd => by
      rw [List.map_cons, List.nodup_cons] at hnd
      by_cases ha : (a.id == tid) = true
      · have hi0 : i = 0 := by
          simp only [ProjectsModule.findIndex, ha, if_pos, Option.some.injEq] at hfi
          omega
        subst hi0
        have htask : task = a := by
          rw [List.getElem?_cons_zero, Option.some.injEq] at hget
          exact hget.symm
        have hfa : (a :: l).filter (fun st => st.id != tid) = l := by
          rw [List.filter_cons]
          have : (a.id != tid) = false := by
            simp only [bne, ha, Bool.not_true]
          rw [this]
          simp only [Bool.false_eq_true, if_neg, not_false_iff]
          apply List.filter_eq_self.mpr
          intro st hst
          have : st.id ≠ tid := by
            intro hc
            apply hnd.1
            rw [beq_iff_eq] at ha
            rw [ha, ← hc]
            exact List.mem_map.mpr ⟨st, hst, rfl⟩
          simpa [bne_iff_ne] using this
        rw [hfa, htask]
        unfold ProjectsModule.spliceInsert
        rw [Nat.zero_min, List.insertIdx_zero]
      · simp only [ProjectsModule.findIndex, ha, Bool.false_eq_true, if_neg,
          not_false_iff] at hfi
        cases hfi0 : ProjectsModule.findIndex (fun st => st.id == tid) l with
        | none => rw [hfi0] at hfi; simp at hfi
        | some i0 =>
            rw [hfi0] at hfi
            simp only [Option.map_some', Option.some.injEq] at hfi
            subst hfi
            rw [List.getElem?_cons_succ] at hget
            have hfc : (a :: l).filter (fun st => st.id != tid) =
                a :: l.filter (fun st => st.id != tid) := by
              rw [List.filter_cons]
              have : (a.id != tid) = true := by
                simp only [bne, ha, Bool.not_false]
              rw [this]
              simp
            rw [hfc]
            unfold ProjectsModule.spliceInsert
            have hmin : min (i0 + 1) ((l.filter (fun st => st.id != tid)).length + 1) =
                min i0 (l.filter (fun st => st.id != tid)).length + 1 :=
              Nat.succ_min_succ i0 _
            rw [List.length_cons, hmin, List.insertIdx_succ_cons]
            have ih := filter_spliceInsert_restore tid l i0 task hfi0 hget hnd.2
            unfold ProjectsModule.spliceInsert at ih
            rw [ih]

theorem find?_map_upd (key : String) (g : ProjectsModule.Project → ProjectsModule.Project)
    (hg : ∀ q, (g q).id = q.id) :
    ∀ (l : List ProjectsModule.Project) (p : ProjectsModule.Project),
      l.find? (fun q => q.id == key) = some p →
      (l.map (fun q => if q.id == key then g q else q)).find? (fun q => q.id == key) =
        some (g p)
  | [], p, h => by simp at h
  | a :: l, p, h => by
      rw [List.find?_cons] at h
      by_cases ha : (a.id == key) = true
      · rw [ha] at h
        have hpa : p = a := by
          rw [Option.some.injEq] at h
          exact h.symm
        subst hpa
        rw [List.map_cons, if_pos ha, List.find?_cons]
        have : ((g p).id == key) = true := by rw [hg p]; exact ha
        rw [this]
      · rw [Bool.not_eq_true] at ha
        rw [ha] at h
        rw [List.map_cons, if_neg (by simp [ha]), List.find?_cons, ha]
        exact find?_map_upd key g hg l p h

theorem undo_after_delete_map (pid tid : String) (i : Nat)
    (task : ProjectsModule.Step) (l : List ProjectsModule.Project)
    (proj : ProjectsModule.Project)
    (hfind : l.find? (fun p => p.id == pid) = some proj)
    (hnd : (l.map ProjectsModule.Project.id).Nodup)
    (hrestore : ProjectsModule.spliceInsert
        (proj.steps.filter (fun st => st.id != tid)) i task = proj.steps) :
    (l.map (fun p => if p.id == pid then
        { p with steps := p.steps.filter (fun st => st.id != tid) } else p)).map
      (fun p => if p.id == pid then
        { p with steps := ProjectsModule.spliceInsert p.steps i task } else p) = l := by
  rw [List.map_map]
  have hid : ∀ p ∈ l, p.id = pid → p = proj := nodup_find?_unique l pid proj hnd hfind
  have hstep : ∀ p ∈ l,
      ((fun p => if p.id == pid then
          { p with steps := ProjectsModule.spliceInsert p.steps i task } else p) ∘
        (fun p => if p.id == pid then
          { p with steps := p.steps.filter (fun st => st.id != tid) } else p)) p = id p := by
    intro p hp
    by_cases hpp : (p.id == pid) = true
    · have hpe : p = proj := hid p hp (beq_iff_eq.mp hpp)
      subst hpe
      simp only [Function.comp_apply, if_pos hpp, id_eq]
      rw [hrestore]
    · rw [Bool.not_eq_true] at hpp
      simp only [Function.comp_apply, hpp, Bool.false_eq_true, if_neg, not_false_iff,
        id_eq]
  rw [List.map_congr_left hstep, List.map_id]

theorem lookup_append_some (a : String) :
    ∀ (l1 l2 : List (String × String)) (v : String), l1.lookup a = some v →
      (l1 ++ l2).lookup a = some v
  | [], _, _, h => by simp at h
  | (k, b) :: l1, l2, v, h => by
      by_cases hak : (a == k) = true
      · simp only [List.lookup_cons, hak] at h
        simp only [List.cons_append, List.lookup_cons, hak]
        exact h
      · rw [Bool.not_eq_true] at hak
        simp only [List.lookup_cons, hak] at h
        simp only [List.cons_append, List.lookup_cons, hak]
        exact lookup_append_some a l1 l2 v h

theorem lookup_append_none (a : String) :
    ∀ (l1 l2 : List (String × String)), l1.lookup a = none →
      (l1 ++ l2).lookup a = l2.lookup a
  | [], _, _ => rfl
  | (k, b) :: l1, l2, h => by
      by_cases hak : (a == k) = true
      · simp only [List.lookup_cons, hak] at h
        exact absurd h (by simp)
      · rw [Bool.not_eq_true] at hak
        simp only [List.lookup_cons, hak] at h
        simp only [List.cons_append, List.lookup_cons, hak]
        exact lookup_append_none a l1 l2 h

theorem buildProjectMap_lookup_none (nm : String) :
    ∀ (ps : List Groq.ProjectOut) (rs : List (Option String)),
      (∀ p ∈ ps, p.name ≠ nm) →
      (ProcessAI.buildProjectMap ps rs).lookup nm = none
  | [], rs, _ => by simp [ProcessAI.buildProjectMap]
  | p :: ps, [], _ => by simp [ProcessAI.buildProjectMap]
  | p :: ps, r :: rs, h => by
      have htail := buildProjectMap_lookup_none nm ps rs
        (fun q hq => h q (List.mem_cons_of_mem p hq))
      simp only [ProcessAI.buildProjectMap]
      rw [lookup_append_none nm _ _ htail]
      cases r with
      | none => rfl
      | some id =>
          have hp : (nm == p.name) = false := by
            have := h p (List.mem_cons_self p ps)
            simp [Ne.symm this]
          simp [List.lookup_cons, hp]

theorem buildProjectMap_lookup_unique :
    ∀ (ps : List Groq.ProjectOut) (rs : List (Option String)) (k : Nat)
      (p : Groq.ProjectOut) (pid : String),
      ps[k]? = some p → rs[k]? = some (some pid) →
      (∀ k2 p2, ps[k2]? = some p2 → p2.name = p.name → k2 = k) →
      (ProcessAI.buildProjectMap ps rs).lookup p.name = some pid
  | [], _, k, p, pid, hp, _, _ => by simp at hp
  | _ :: _, [], k, p, pid, _, hr, _ => by simp at hr
  | q :: ps, r :: rs, 0, p, pid, hp, hr, huniq => by
      rw [List.getElem?_cons_zero, Option.some.injEq] at hp
      rw [List.getElem?_cons_zero, Option.some.injEq] at hr
      subst hp
      subst hr
      have hnone : (ProcessAI.buildProjectMap ps rs).lookup q.name = none := by
        apply buildProjectMap_lookup_none
        intro p2 hp2 hnm
        obtain ⟨n, hn⟩ := List.mem_iff_getElem?.mp hp2
        have := huniq (n + 1) p2 (by rwa [List.getElem?_cons_succ]) hnm
        omega
      simp only [ProcessAI.buildProjectMap]
      rw [lookup_append_none _ _ _ hnone]
      simp [List.lookup_cons]
  | q :: ps, r :: rs, k + 1, p, pid, hp, hr, huniq => by
      rw [List.getElem?_cons_succ] at hp
      rw [List.getElem?_cons_succ] at hr
      have huniq2 : ∀ k2 p2, ps[k2]? = some p2 → p2.name = p.name → k2 = k := by
        intro k2 p2 h2 hnm
        have := huniq (k2 + 1) p2 (by rwa [List.getElem?_cons_succ]) hnm
        omega
      have ih := buildProjectMap_lookup_unique ps rs k p pid hp hr huniq2
      simp only [ProcessAI.buildProjectMap]
      cases r with
      | none => rw [List.append_nil]; exact ih
      | some id2 => exact lookup_append_some _ _ _ _ ih

/-- C1 (counterexample): with the API-key credential missing,
`analyzeTranscript` raises the CONFIG_ERROR to its caller instead of
returning the fallback result, because the throw sits before the `try`
block — refuting the claim that it never raises on any failure. -/
theorem c1_missing_key_raises :
    Groq.analyzeTranscript "hola" none Groq.FetchOutcome.networkError =
      Except.error "CONFIG_ERROR: API Key not found" := rfl

/-- C1 (amended): when the API key is present and non-empty,
`analyzeTranscript` never raises; on every failure inside the request path
(network error, non-2xx response, empty content, unparsable JSON, or a
parsed object missing the required `projects`/`tasks` top-level fields) it
returns exactly the fixed fallback result, which contains one placeholder
project, one placeholder task, and empty dreams/difficulties/goals lists.
With the key missing or empty it instead raises a CONFIG_ERROR. -/
theorem c1_fallback_spec (text k : String) (outcome : Groq.FetchOutcome)
    (hk : k.isEmpty = false) :
    (∃ r, Groq.analyzeTranscript text (some k) outcome = .ok r) ∧
    ((∀ p, outcome = .content p → p.projects = none ∨ p.tasks = none) →
      Groq.analyzeTranscript text (some k) outcome = .ok Groq.fallbackResult) ∧
    (∀ t, Groq.analyzeTranscript t none outcome =
      .error "CONFIG_ERROR: API Key not found") ∧
    Groq.fallbackResult.projects.length = 1 ∧
    Groq.fallbackResult.tasks.length = 1 ∧
    Groq.fallbackResult.insights.dreams = [] ∧
    Groq.fallbackResult.insights.difficulties = [] ∧
    Groq.fallbackResult.insights.goals = [] := by
  refine ⟨?_, ?_, fun t => rfl, rfl, rfl, rfl, rfl, rfl⟩
  · cases htb : Groq.tryBody outcome with
    | ok r => exact ⟨r, by simp [Groq.analyzeTranscript, hk, htb]⟩
    | error e => exact ⟨Groq.fallbackResult, by simp [Groq.analyzeTranscript, hk, htb]⟩
  · intro hfail
    cases outcome with
    | networkError => simp [Groq.analyzeTranscript, hk, Groq.tryBody]
    | badStatus s => simp [Groq.analyzeTranscript, hk, Groq.tryBody]
    | emptyContent => simp [Groq.analyzeTranscript, hk, Groq.tryBody]
    | badJson => simp [Groq.analyzeTranscript, hk, Groq.tryBody]
    | content p =>
        rcases hfail p rfl with hp | hp <;>
          cases hps : p.projects <;> cases hts : p.tasks <;>
            simp_all [Groq.analyzeTranscript, hk, Groq.tryBody]

/-- C1 (witness): the amended theorem applied to a concrete non-2xx
response with a present key. -/
theorem c1_fallback_spec_witness :
    Groq.analyzeTranscript "hola" (some "gsk-1") (Groq.FetchOutcome.badStatus 500) =
      .ok Groq.fallbackResult :=
  (c1_fallback_spec "hola" "gsk-1" (Groq.FetchOutcome.badStatus 500) (by decide)).2.1
    (fun p h => nomatch h)

/-- C8 (counterexample): an invocation of `signOut` in which the remote
auth call reports an error still returns normally — the error object is
never read, refuting the claim that all three operations propagate remote
auth errors. -/
theorem c8_signOut_swallows_error :
    UseAuth.signOut (some { message := "Auth session missing" }) = Except.ok () := rfl

/-- C8 (amended): `signIn` and `signUp` propagate every error reported by
the remote auth subsystem to the caller and return normally otherwise;
`signOut` returns normally regardless of the remote outcome, dropping any
reported error. -/
theorem c8_auth_error_propagation (e : UseAuth.AuthError) (r : Option UseAuth.AuthError) :
    UseAuth.signIn (some e) = .error e ∧ UseAuth.signUp (some e) = .error e ∧
    UseAuth.signIn none = .ok () ∧ UseAuth.signUp none = .ok () ∧
    UseAuth.signOut r = .ok () :=
  ⟨rfl, rfl, rfl, rfl, rfl⟩

/-- C5 (counterexample): a non-"Hoy" bucket that starts with zero items is
reachable (`fetchCounts` assigns count 0 to a project with no todo tasks),
and such a bucket displays neither the empty-initial state nor the
completed state — refuting the claim that every bucket starting with zero
items displays the empty state. -/
theorem c5_non_hoy_empty_bucket :
    FocusSession.fetchCounts [{ id := "pid1", user_id := "u1", name := "X" }] [] =
      [("Hoy", 0), ("X", 0)] ∧
    FocusSession.isHoyEmpty "X" [] 0 = false ∧
    FocusSession.isProjectCompleted "X" [] 0 = false := by
  decide

/-- C5 (amended): the completed display state holds exactly when the
remaining count is zero and the initial count was positive, and is never
shown for a bucket that started empty; the empty display state is shown
exactly for the "Hoy" bucket with zero remaining and zero initial items,
so a non-"Hoy" bucket that starts empty displays neither state. -/
theorem c5_display_state_characterization (sel : String)
    (tasks : List FocusSession.FocusTask) (initial : Nat) :
    (FocusSession.isProjectCompleted sel tasks initial = true ↔
      tasks.length = 0 ∧ 0 < initial) ∧
    (initial = 0 → FocusSession.isProjectCompleted sel tasks initial = false) ∧
    (FocusSession.isHoyEmpty sel tasks initial = true ↔
      sel = "Hoy" ∧ tasks.length = 0 ∧ initial = 0) := by
  cases initial <;>
    simp [FocusSession.isProjectCompleted, FocusSession.isHoyEmpty, and_assoc]

/-- C10: saving a title edit with blank (empty or whitespace-only) text
leaves the entire state unchanged except that editing mode is exited, and
submitting a blank new task adds no step and only exits adding mode — in
both cases every project and step is untouched. -/
theorem c10_blank_inputs_noop (s : ProjectsModule.ModuleState) (pid : String)
    (tid : Option String) (newId : String)
    (h1 : ProjectsModule.jsTrim s.tempText = "")
    (h2 : ProjectsModule.jsTrim s.newTaskText = "") :
    ProjectsModule.handleSaveEdit s pid tid = { s with editingId := none } ∧
    ProjectsModule.submitNewTask s pid newId = { s with addingTaskToProjectId := none } := by
  have h1e : (ProjectsModule.jsTrim s.tempText).isEmpty = true := by rw [h1]; rfl
  have h2e : (ProjectsModule.jsTrim s.newTaskText).isEmpty = true := by rw [h2]; rfl
  constructor
  · simp [ProjectsModule.handleSaveEdit, h1e]
  · simp [ProjectsModule.submitNewTask, h2e]

/-- C10 (witness): the theorem applied to a concrete state whose pending
texts are whitespace-only and empty. -/
theorem c10_blank_inputs_noop_witness :
    ProjectsModule.handleSaveEdit
        { projects := [], lastDeleted := none, toastVisible := false,
          editingId := some "p1", tempText := "  ",
          addingTaskToProjectId := none, newTaskText := "" } "p1" none =
      { projects := [], lastDeleted := none, toastVisible := false,
        editingId := none, tempText := "  ",
        addingTaskToProjectId := none, newTaskText := "" } ∧
    ProjectsModule.submitNewTask
        { projects := [], lastDeleted := none, toastVisible := false,
          editingId := some "p1", tempText := "  ",
          addingTaskToProjectId := none, newTaskText := "" } "p1" "id9" =
      { projects := [], lastDeleted := none, toastVisible := false,
        editingId := some "p1", tempText := "  ",
        addingTaskToProjectId := none, newTaskText := "" } :=
  c10_blank_inputs_noop _ "p1" none "id9" (by decide) (by decide)

/-- C2: deleting a step and pressing undo once within the 4-second window
(no toast-timer event in between) restores the projects state exactly — in
particular the deleted step, with the same title and done-flag, sits again
at the index it occupied before the deletion; a second press after the same
delete is a no-op (the slot was cleared and the toast hidden), and a press
after the window has elapsed is a no-op because the hidden toast carries
`pointer-events-none`, so the press never reaches the handler. -/
theorem c2_delete_undo_roundtrip (s : ProjectsModule.ModuleState) (pid tid : String)
    (proj : ProjectsModule.Project) (i : Nat) (task : ProjectsModule.Step)
    (hfind : s.projects.find? (fun p => p.id == pid) = some proj)
    (hidx : ProjectsModule.findIndex (fun st => st.id == tid) proj.steps = some i)
    (hget : proj.steps[i]? = some task)
    (hpnd : (s.projects.map ProjectsModule.Project.id).Nodup)
    (hsnd : (proj.steps.map ProjectsModule.Step.id).Nodup) :
    (ProjectsModule.undoClick (ProjectsModule.handleDeleteTask s pid tid)).projects =
      s.projects ∧
    ProjectsModule.undoClick (ProjectsModule.undoClick
        (ProjectsModule.handleDeleteTask s pid tid)) =
      ProjectsModule.undoClick (ProjectsModule.handleDeleteTask s pid tid) ∧
    ProjectsModule.undoClick (ProjectsModule.toastTimeout
        (ProjectsModule.handleDeleteTask s pid tid)) =
      ProjectsModule.toastTimeout (ProjectsModule.handleDeleteTask s pid tid) := by
  have hrestore := filter_spliceInsert_restore tid proj.steps i task hidx hget hsnd
  have hs1 : ProjectsModule.handleDeleteTask s pid tid =
      { s with
        lastDeleted := some { projectId := pid, task := task, index := i }
        projects := s.projects.map (fun p =>
          if p.id == pid then { p with steps := p.steps.filter (fun st => st.id != tid) }
          else p)
        toastVisible := true } := by
    simp only [ProjectsModule.handleDeleteTask, hfind, hidx, hget]
  have hundo : ProjectsModule.undoClick (ProjectsModule.handleDeleteTask s pid tid) =
      { s with toastVisible := false, lastDeleted := none } := by
    rw [hs1]
    simp only [ProjectsModule.undoClick, ProjectsModule.handleUndo, if_true]
    rw [undo_after_delete_map pid tid i task s.projects proj hfind hpnd hrestore]
  refine ⟨by rw [hundo], ?_, ?_⟩
  · rw [hundo]
    simp [ProjectsModule.undoClick]
  · rw [hs1]
    simp [ProjectsModule.toastTimeout, ProjectsModule.undoClick]

/-- C2 (witness): the theorem applied to a concrete two-project state,
deleting the middle step of the first project. -/
theorem c2_delete_undo_roundtrip_witness :
    (ProjectsModule.undoClick (ProjectsModule.handleDeleteTask
      { projects := [
          { id := "p1", title := "Canal", colorClass := "bg-primary",
            steps := [{ id := "s1", order := 1, title := "A", isDone := false },
                      { id := "s2", order := 2, title := "B", isDone := true },
                      { id := "s3", order := 3, title := "C", isDone := false }] },
          { id := "p2", title := "Viaje", colorClass := "bg-primary",
            steps := [{ id := "s4", order := 1, title := "D", isDone := false }] }],
        lastDeleted := none, toastVisible := false, editingId := none, tempText := "",
        addingTaskToProjectId := none, newTaskText := "" } "p1" "s2")).projects =
      [{ id := "p1", title := "Canal", colorClass := "bg-primary",
         steps := [{ id := "s1", order := 1, title := "A", isDone := false },
                   { id := "s2", order := 2, title := "B", isDone := true },
                   { id := "s3", order := 3, title := "C", isDone := false }] },
       { id := "p2", title := "Viaje", colorClass := "bg-primary",
         steps := [{ id := "s4", order := 1, title := "D", isDone := false }] }] :=
  (c2_delete_undo_roundtrip
    { projects := [
        { id := "p1", title := "Canal", colorClass := "bg-primary",
          steps := [{ id := "s1", order := 1, title := "A", isDone := false },
                    { id := "s2", order := 2, title := "B", isDone := true },
                    { id := "s3", order := 3, title := "C", isDone := false }] },
        { id := "p2", title := "Viaje", colorClass := "bg-primary",
          steps := [{ id := "s4", order := 1, title := "D", isDone := false }] }],
      lastDeleted := none, toastVisible := false, editingId := none, tempText := "",
      addingTaskToProjectId := none, newTaskText := "" } "p1" "s2"
    { id := "p1", title := "Canal", colorClass := "bg-primary",
      steps := [{ id := "s1", order := 1, title := "A", isDone := false },
                { id := "s2", order := 2, title := "B", isDone := true },
                { id := "s3", order := 3, title := "C", isDone := false }] } 1
    { id := "s2", order := 2, title := "B", isDone := true }
    (by decide) (by decide) (by decide) (by decide) (by decide)).1

/-- C7 (counterexample): deleting the only step and undoing restores the
state exactly — the reinserted step keeps the deleted identifier "s1"
(second conjunct), and the handler involves no remote re-creation at all:
it contradicts the claim that undo re-creates the item remotely with a
freshly assigned identifier different from the deleted one. -/
theorem c7_undo_keeps_identifier :
    ProjectsModule.undoClick (ProjectsModule.handleDeleteTask
      { projects := [{ id := "p1", title := "P", colorClass := "bg-primary",
                       steps := [{ id := "s1", order := 1, title := "T", isDone := false }] }],
        lastDeleted := none, toastVisible := false, editingId := none, tempText := "",
        addingTaskToProjectId := none, newTaskText := "" } "p1" "s1") =
      { projects := [{ id := "p1", title := "P", colorClass := "bg-primary",
                       steps := [{ id := "s1", order := 1, title := "T", isDone := false }] }],
        lastDeleted := none, toastVisible := false, editingId := none, tempText := "",
        addingTaskToProjectId := none, newTaskText := "" } ∧
    ((ProjectsModule.undoClick (ProjectsModule.handleDeleteTask
      { projects := [{ id := "p1", title := "P", colorClass := "bg-primary",
                       steps := [{ id := "s1", order := 1, title := "T", isDone := false }] }],
        lastDeleted := none, toastVisible := false, editingId := none, tempText := "",
        addingTaskToProjectId := none, newTaskText := "" } "p1" "s1")).projects[0]?.bind
      (fun p => p.steps[0]?)).map ProjectsModule.Step.id = some "s1" := by
  decide

/-- C7 (amended): undo reinserts the retained step record itself — with its
original, unchanged identifier — locally at the recorded original index;
no remote call is made anywhere in the delete/undo pair of this component. -/
theorem c7_undo_reinserts_retained_step (s : ProjectsModule.ModuleState)
    (ld : ProjectsModule.LastDeleted) (p : ProjectsModule.Project)
    (h : s.lastDeleted = some ld)
    (hp : s.projects.find? (fun q => q.id == ld.projectId) = some p)
    (hidx : ld.index ≤ p.steps.length) :
    (ProjectsModule.handleUndo s).projects.find? (fun q => q.id == ld.projectId) =
      some { p with steps := ProjectsModule.spliceInsert p.steps ld.index ld.task } ∧
    (ProjectsModule.spliceInsert p.steps ld.index ld.task)[ld.index]? = some ld.task := by
  have hu : ProjectsModule.handleUndo s =
      { s with
        projects := s.projects.map (fun q =>
          if q.id == ld.projectId then
            { q with steps := ProjectsModule.spliceInsert q.steps ld.index ld.task }
          else q)
        toastVisible := false
        lastDeleted := none } := by
    simp only [ProjectsModule.handleUndo, h]
  constructor
  · rw [hu]
    exact find?_map_upd ld.projectId
      (fun q => { q with steps := ProjectsModule.spliceInsert q.steps ld.index ld.task })
      (fun q => rfl) s.projects p hp
  · exact getElem?_spliceInsert_self p.steps ld.index ld.task hidx

/-- C7 (witness): the amended theorem applied to a concrete state holding a
retained deletion record. -/
theorem c7_undo_reinserts_retained_step_witness :
    (ProjectsModule.handleUndo
      { projects := [{ id := "p1", title := "P", colorClass := "bg-primary",
                       steps := [{ id := "s1", order := 1, title := "T", isDone := false }] }],
        lastDeleted := some { projectId := "p1",
                              task := { id := "s0", order := 1, title := "Z", isDone := true },
                              index := 1 },
        toastVisible := true, editingId := none, tempText := "",
        addingTaskToProjectId := none, newTaskText := "" }).projects.find?
      (fun q => q.id == "p1") =
      some { id := "p1", title := "P", colorClass := "bg-primary",
             steps := [{ id := "s1", order := 1, title := "T", isDone := false },
                       { id := "s0", order := 1, title := "Z", isDone := true }] } :=
  (c7_undo_reinserts_retained_step
    { projects := [{ id := "p1", title := "P", colorClass := "bg-primary",
                     steps := [{ id := "s1", order := 1, title := "T", isDone := false }] }],
      lastDeleted := some { projectId := "p1",
                            task := { id := "s0", order := 1, title := "Z", isDone := true },
                            index := 1 },
      toastVisible := true, editingId := none, tempText := "",
      addingTaskToProjectId := none, newTaskText := "" }
    { projectId := "p1", task := { id := "s0", order := 1, title := "Z", isDone := true },
      index := 1 }
    { id := "p1", title := "P", colorClass := "bg-primary",
      steps := [{ id := "s1", order := 1, title := "T", isDone := false }] }
    (by decide) (by decide) (by decide)).1

/-- C3: a drag-reorder moving index `i` to index `j` (i ≠ j, both in
range) yields a permutation of the original list with the moved item at
index `j` and the relative order of the remaining items preserved (erasing
the moved item from the result gives the original list minus that item);
this holds for the projects list and for a step list, the same-project step
reorder applies exactly that splice to the dragged project, and a
cross-project move removes the step from the source step list (index `i`
erased) and inserts it at index `j` of the destination step list, leaving
every other project untouched. -/
theorem c3_drag_reorder_spec :
    (∀ (l : List ProjectsModule.Project) (i j : Nat) (p : ProjectsModule.Project),
        i ≠ j → j < l.length → l[i]? = some p →
        ((ProjectsModule.handleDragEnter l (.project i) (.project j)).1)[j]? = some p ∧
        (ProjectsModule.handleDragEnter l (.project i) (.project j)).1.eraseIdx j =
          l.eraseIdx i ∧
        ((ProjectsModule.handleDragEnter l (.project i) (.project j)).1).Perm l) ∧
    (∀ (l : List ProjectsModule.Step) (i j : Nat) (st : ProjectsModule.Step),
        i ≠ j → j < l.length → l[i]? = some st →
        (ProjectsModule.spliceMove l i j)[j]? = some st ∧
        (ProjectsModule.spliceMove l i j).eraseIdx j = l.eraseIdx i ∧
        (ProjectsModule.spliceMove l i j).Perm l) ∧
    (∀ (projects : List ProjectsModule.Project) (pid : String) (i j : Nat), i ≠ j →
        (ProjectsModule.handleDragEnter projects (.task pid i) (.task pid j)).1 =
          projects.map (fun p =>
            if p.id == pid then { p with steps := ProjectsModule.spliceMove p.steps i j }
            else p)) ∧
    (∀ (projects : List ProjectsModule.Project) (spid dpid : String) (si di i j : Nat)
        (sp dp : ProjectsModule.Project) (item : ProjectsModule.Step),
        spid ≠ dpid →
        ProjectsModule.findIndex (fun p => p.id == spid) projects = some si →
        ProjectsModule.findIndex (fun p => p.id == dpid) projects = some di →
        projects[si]? = some sp → projects[di]? = some dp →
        sp.steps[i]? = some item → j ≤ dp.steps.length →
        ((ProjectsModule.handleDragEnter projects (.task spid i) (.task dpid j)).1)[si]? =
          some { sp with steps := sp.steps.eraseIdx i } ∧
        ((ProjectsModule.handleDragEnter projects (.task spid i) (.task dpid j)).1)[di]? =
          some { dp with steps := dp.steps.insertIdx j item } ∧
        (∀ k, k ≠ si → k ≠ di →
          ((ProjectsModule.handleDragEnter projects (.task spid i) (.task dpid j)).1)[k]? =
            projects[k]?)) := by
  refine ⟨?_, ?_, ?_, ?_⟩
  · intro l i j p hne hj hi
    have hij : (i == j) = false := by simp [hne]
    have he : (ProjectsModule.handleDragEnter l (.project i) (.project j)).1 =
        ProjectsModule.spliceMove l i j := by
      simp only [ProjectsModule.handleDragEnter, hij, Bool.false_eq_true, if_neg,
        not_false_iff]
    rw [he]
    exact spliceMove_spec l i j p hj hi
  · intro l i j st hne hj hi
    exact spliceMove_spec l i j st hj hi
  · intro projects pid i j hne
    have hij : (i == j) = false := by simp [hne]
    simp only [ProjectsModule.handleDragEnter, beq_self_eq_true, if_pos, hij,
      Bool.false_eq_true, if_neg, not_false_iff]
  · intro projects spid dpid si di i j sp dp item hne hsi hdi hsp hdp hitem hj
    have hpd : (spid == dpid) = false := by simp [hne]
    obtain ⟨a, ha, hpa⟩ := findIndex_some_spec _ projects si hsi
    obtain ⟨b, hb, hpb⟩ := findIndex_some_spec _ projects di hdi
    rw [hsp, Option.some.injEq] at ha
    rw [hdp, Option.some.injEq] at hb
    subst ha
    subst hb
    have hspid : sp.id = spid := beq_iff_eq.mp hpa
    have hdpid : dp.id = dpid := beq_iff_eq.mp hpb
    have hsidi : si ≠ di := by
      intro hc
      subst hc
      rw [hsp, Option.some.injEq] at hdp
      subst hdp
      exact hne (hspid.symm.trans hdpid)
    have hres : (ProjectsModule.handleDragEnter projects (.task spid i) (.task dpid j)).1 =
        (projects.set si { sp with steps := sp.steps.eraseIdx i }).set di
          { dp with steps := dp.steps.insertIdx j item } := by
      simp only [ProjectsModule.handleDragEnter, hpd, Bool.false_eq_true, if_neg,
        not_false_iff, ProjectsModule.crossMove, hsi, hdi, hsp, hdp, hitem]
      rw [spliceInsert_of_le dp.steps j item hj]
    obtain ⟨hsilen, -⟩ := List.getElem?_eq_some_iff.mp hsp
    obtain ⟨hdilen, -⟩ := List.getElem?_eq_some_iff.mp hdp
    refine ⟨?_, ?_, ?_⟩
    · rw [hres, List.getElem?_set, if_neg (Ne.symm hsidi), List.getElem?_set, if_pos rfl,
        if_pos hsilen]
    · rw [hres, List.getElem?_set, if_pos rfl, List.length_set, if_pos hdilen]
    · intro k hks hkd
      rw [hres, List.getElem?_set, if_neg (fun hc => hkd hc.symm), List.getElem?_set,
        if_neg (fun hc => hks hc.symm)]

/-- C3 (witness): the theorem applied to concrete lists — a project
reorder 0 → 2, a step reorder 1 → 0, and a cross-project move of the only
step of `p1` into index 1 of `p2`. -/
theorem c3_drag_reorder_spec_witness :
    ((ProjectsModule.handleDragEnter
        [{ id := "a", title := "A", colorClass := "c", steps := [] },
         { id := "b", title := "B", colorClass := "c", steps := [] },
         { id := "c", title := "C", colorClass := "c", steps := [] }]
        (.project 0) (.project 2)).1)[2]? =
      some { id := "a", title := "A", colorClass := "c", steps := [] } ∧
    (ProjectsModule.spliceMove
        ([{ id := "s1", order := 1, title := "S1", isDone := false },
          { id := "s2", order := 2, title := "S2", isDone := true }] :
          List ProjectsModule.Step) 1 0)[0]? =
      some { id := "s2", order := 2, title := "S2", isDone := true } ∧
    ((ProjectsModule.handleDragEnter
        [{ id := "p1", title := "P1", colorClass := "c",
           steps := [{ id := "t1", order := 1, title := "T1", isDone := false }] },
         { id := "p2", title := "P2", colorClass := "c",
           steps := [{ id := "t2", order := 1, title := "T2", isDone := false }] }]
        (.task "p1" 0) (.task "p2" 1)).1)[1]? =
      some { id := "p2", title := "P2", colorClass := "c",
             steps := [{ id := "t2", order := 1, title := "T2", isDone := false },
                       { id := "t1", order := 1, title := "T1", isDone := false }] } :=
  ⟨(c3_drag_reorder_spec.1
      [{ id := "a", title := "A", colorClass := "c", steps := [] },
       { id := "b", title := "B", colorClass := "c", steps := [] },
       { id := "c", title := "C", colorClass := "c", steps := [] }] 0 2
      { id := "a", title := "A", colorClass := "c", steps := [] }
      (by decide) (by decide) (by decide)).1,
   (c3_drag_reorder_spec.2.1
      [{ id := "s1", order := 1, title := "S1", isDone := false },
       { id := "s2", order := 2, title := "S2", isDone := true }] 1 0
      { id := "s2", order := 2, title := "S2", isDone := true }
      (by decide) (by decide) (by decide)).1,
   (c3_drag_reorder_spec.2.2.2
      [{ id := "p1", title := "P1", colorClass := "c",
         steps := [{ id := "t1", order := 1, title := "T1", isDone := false }] },
       { id := "p2", title := "P2", colorClass := "c",
         steps := [{ id := "t2", order := 1, title := "T2", isDone := false }] }]
      "p1" "p2" 0 1 0 1
      ({ id := "p1", title := "P1", colorClass := "c",
         steps := [{ id := "t1", order := 1, title := "T1", isDone := false }] } :
        ProjectsModule.Project)
      ({ id := "p2", title := "P2", colorClass := "c",
         steps := [{ id := "t2", order := 1, title := "T2", isDone := false }] } :
        ProjectsModule.Project)
      ({ id := "t1", order := 1, title := "T1", isDone := false } : ProjectsModule.Step)
      (by decide) (by decide) (by decide) (by decide) (by decide) (by decide)
      (by decide)).2.1⟩

/-- C9: every drag-reorder step preserves the multiset content of the
state: a project reorder permutes the projects list (and therefore keeps
the multiset of all steps); a task drag — same-project reorder or
cross-project move, with any indices and ids — keeps the project id list
exactly and permutes the multiset of all steps across all projects, so no
project or step is duplicated or lost and the total step count is
unchanged. -/
theorem c9_drag_preserves_multisets :
    (∀ (projects : List ProjectsModule.Project) (i j : Nat),
        ((ProjectsModule.handleDragEnter projects (.project i) (.project j)).1).Perm
          projects ∧
        ((ProjectsModule.handleDragEnter projects (.project i) (.project j)).1.flatMap
            ProjectsModule.Project.steps).Perm
          (projects.flatMap ProjectsModule.Project.steps)) ∧
    (∀ (projects : List ProjectsModule.Project) (spid dpid : String) (i j : Nat),
        (ProjectsModule.handleDragEnter projects (.task spid i) (.task dpid j)).1.map
            ProjectsModule.Project.id = projects.map ProjectsModule.Project.id ∧
        ((ProjectsModule.handleDragEnter projects (.task spid i) (.task dpid j)).1.flatMap
            ProjectsModule.Project.steps).Perm
          (projects.flatMap ProjectsModule.Project.steps)) := by
  constructor
  · intro projects i j
    by_cases hij : (i == j) = true
    · have he : (ProjectsModule.handleDragEnter projects (.project i) (.project j)).1 =
          projects := by
        simp only [ProjectsModule.handleDragEnter, hij, if_pos]
      rw [he]
      exact ⟨List.Perm.refl _, List.Perm.refl _⟩
    · rw [Bool.not_eq_true] at hij
      have he : (ProjectsModule.handleDragEnter projects (.project i) (.project j)).1 =
          ProjectsModule.spliceMove projects i j := by
        simp only [ProjectsModule.handleDragEnter, hij, Bool.false_eq_true, if_neg,
          not_false_iff]
      rw [he]
      have hp := spliceMove_perm projects i j
      exact ⟨hp, hp.flatMap_right _⟩
  · intro projects spid dpid i j
    by_cases hpd : (spid == dpid) = true
    · have hspd : spid = dpid := beq_iff_eq.mp hpd
      subst hspd
      by_cases hij : (i == j) = true
      · have he : (ProjectsModule.handleDragEnter projects (.task spid i)
            (.task spid j)).1 = projects := by
          simp only [ProjectsModule.handleDragEnter, beq_self_eq_true, if_pos, hij]
        rw [he]
        exact ⟨rfl, List.Perm.refl _⟩
      · rw [Bool.not_eq_true] at hij
        have he : (ProjectsModule.handleDragEnter projects (.task spid i)
            (.task spid j)).1 =
            projects.map (fun p =>
              if p.id == spid then
                { p with steps := ProjectsModule.spliceMove p.steps i j }
              else p) := by
          simp only [ProjectsModule.handleDragEnter, beq_self_eq_true, if_pos, hij,
            Bool.false_eq_true, if_neg, not_false_iff]
        rw [he]
        constructor
        · exact map_id_guarded spid
            (fun p => { p with steps := ProjectsModule.spliceMove p.steps i j })
            (fun q => rfl) projects
        · apply flatMap_map_steps_perm
          intro p
          by_cases hp : (p.id == spid) = true
          · simp only [if_pos hp]
            exact spliceMove_perm p.steps i j
          · rw [Bool.not_eq_true] at hp
            simp only [hp, Bool.false_eq_true, if_neg, not_false_iff]
            exact List.Perm.refl _
    · rw [Bool.not_eq_true] at hpd
      have hne : spid ≠ dpid := by
        intro hc
        subst hc
        simp at hpd
      have he : (ProjectsModule.handleDragEnter projects (.task spid i)
          (.task dpid j)).1 = ProjectsModule.crossMove projects spid dpid i j := by
        simp only [ProjectsModule.handleDragEnter, hpd, Bool.false_eq_true, if_neg,
          not_false_iff]
      rw [he]
      cases hsi : ProjectsModule.findIndex (fun p => p.id == spid) projects with
      | none =>
          have hcm : ProjectsModule.crossMove projects spid dpid i j = projects := by
            simp only [ProjectsModule.crossMove, hsi]
          rw [hcm]
          exact ⟨rfl, List.Perm.refl _⟩
      | some si =>
      cases hdi : ProjectsModule.findIndex (fun p => p.id == dpid) projects with
      | none =>
          have hcm : ProjectsModule.crossMove projects spid dpid i j = projects := by
            simp only [ProjectsModule.crossMove, hsi, hdi]
          rw [hcm]
          exact ⟨rfl, List.Perm.refl _⟩
      | some di =>
      cases hsp : projects[si]? with
      | none =>
          have hcm : ProjectsModule.crossMove projects spid dpid i j = projects := by
            simp only [ProjectsModule.crossMove, hsi, hdi, hsp]
          rw [hcm]
          exact ⟨rfl, List.Perm.refl _⟩
      | some sp =>
      cases hdp : projects[di]? with
      | none =>
          have hcm : ProjectsModule.crossMove projects spid dpid i j = projects := by
            simp only [ProjectsModule.crossMove, hsi, hdi, hsp, hdp]
          rw [hcm]
          exact ⟨rfl, List.Perm.refl _⟩
      | some dp =>
      cases hitem : sp.steps[i]? with
      | none =>
          have hcm : ProjectsModule.crossMove projects spid dpid i j = projects := by
            simp only [ProjectsModule.crossMove, hsi, hdi, hsp, hdp, hitem]
          rw [hcm]
          exact ⟨rfl, List.Perm.refl _⟩
      | some item =>
      have hcm : ProjectsModule.crossMove projects spid dpid i j =
          (projects.set si { sp with steps := sp.steps.eraseIdx i }).set di
            { dp with steps := ProjectsModule.spliceInsert dp.steps j item } := by
        simp only [ProjectsModule.crossMove, hsi, hdi, hsp, hdp, hitem]
      rw [hcm]
      obtain ⟨a, ha, hpa⟩ := findIndex_some_spec _ projects si hsi
      obtain ⟨b, hb, hpb⟩ := findIndex_some_spec _ projects di hdi
      rw [hsp, Option.some.injEq] at ha
      rw [hdp, Option.some.injEq] at hb
      subst ha
      subst hb
      have hspid : sp.id = spid := beq_iff_eq.mp hpa
      have hdpid : dp.id = dpid := beq_iff_eq.mp hpb
      have hsidi : si ≠ di := by
        intro hc
        subst hc
        rw [hsp, Option.some.injEq] at hdp
        subst hdp
        exact hne (hspid.symm.trans hdpid)
      constructor
      · rw [List.map_set, List.map_set]
        have e1 : (projects.map ProjectsModule.Project.id).set si
            ({ sp with steps := sp.steps.eraseIdx i } : ProjectsModule.Project).id =
            projects.map ProjectsModule.Project.id := by
          apply set_of_getElem?
          rw [List.getElem?_map, hsp]
          rfl
        rw [e1]
        apply set_of_getElem?
        rw [List.getElem?_map, hdp]
        rfl
      · rw [List.flatMap_def, List.flatMap_def, List.map_set, List.map_set]
        apply flatten_set2_perm _ si di sp.steps dp.steps _ _ hsidi
        · rw [List.getElem?_map, hsp]
          rfl
        · rw [List.getElem?_map, hdp]
          rfl
        · have h1 : (sp.steps.eraseIdx i ++ ProjectsModule.spliceInsert dp.steps j
              item).Perm (sp.steps.eraseIdx i ++ (item :: dp.steps)) :=
            List.Perm.append_left _ (spliceInsert_perm dp.steps j item)
          have h2 : (sp.steps.eraseIdx i ++ (item :: dp.steps)).Perm
              (item :: (sp.steps.eraseIdx i ++ dp.steps)) := List.perm_middle
          have h3 : (sp.steps ++ dp.steps).Perm
              (item :: (sp.steps.eraseIdx i ++ dp.steps)) :=
            List.Perm.append_right dp.steps (perm_cons_eraseIdx sp.steps i item hitem)
          exact h1.trans (h2.trans h3.symm)

/-- C4 (counterexample): a batch containing a project whose name is the
empty string and a task whose `project_name` exactly equals that name: the
project insert succeeds and is assigned id "id-1", yet the task is
inserted with no project association, because the code guards the map
lookup behind the truthiness of `project_name` and the empty string is
falsy — refuting the claim for this exact-match case. -/
theorem c4_empty_name_task_unassociated :
    ProcessAI.processAITrace "u1" "txt"
      { projects := [{ name := "", description := "d", status := "active" }],
        tasks := [{ title := "t", description := "d", priority := "medium",
                    project_name := "" }],
        insights := { dreams := [], difficulties := [], goals := [] } }
      [some "id-1"] =
      [ProcessAI.InsertOp.project "u1" "" "d" "active",
       ProcessAI.InsertOp.task "u1" none "t" "d" "medium" "todo",
       ProcessAI.InsertOp.transcriptRow "u1" "txt" true,
       ProcessAI.InsertOp.history "u1" "voice_recording_processed"] := by
  decide

/-- C4 (amended): in every `processAI` batch, all project inserts are
issued before any task insert in the sequential trace; every task with a
non-empty `project_name` that exactly equals the name of the unique batch
project at position `k`, whose insert was assigned id `pid`, is inserted
with `project_id = some pid`; and a task whose `project_name` matches no
project name in the batch is inserted with no project association. -/
theorem c4_batch_insert_spec :
    (∀ (uid tr : String) (r : Groq.AnalysisResult) (assign : List (Option String))
        (a b : Nat) (opa opb : ProcessAI.InsertOp),
        (ProcessAI.processAITrace uid tr r assign)[a]? = some opa →
        (ProcessAI.processAITrace uid tr r assign)[b]? = some opb →
        opa.isProject = true → opb.isTask = true → a < b) ∧
    (∀ (uid tr : String) (r : Groq.AnalysisResult) (assign : List (Option String))
        (t : Groq.TaskOut) (k : Nat) (p : Groq.ProjectOut) (pid : String),
        t ∈ r.tasks → t.project_name ≠ "" →
        r.projects[k]? = some p → assign[k]? = some (some pid) →
        p.name = t.project_name →
        (∀ k2 p2, r.projects[k2]? = some p2 → p2.name = t.project_name → k2 = k) →
        ProcessAI.resolveProjectId (ProcessAI.buildProjectMap r.projects assign) t =
          some pid ∧
        ProcessAI.InsertOp.task uid (some pid) t.title t.description t.priority "todo" ∈
          ProcessAI.processAITrace uid tr r assign) ∧
    (∀ (uid tr : String) (r : Groq.AnalysisResult) (assign : List (Option String))
        (t : Groq.TaskOut),
        t ∈ r.tasks → (∀ p ∈ r.projects, p.name ≠ t.project_name) →
        ProcessAI.resolveProjectId (ProcessAI.buildProjectMap r.projects assign) t =
          none ∧
        ProcessAI.InsertOp.task uid none t.title t.description t.priority "todo" ∈
          ProcessAI.processAITrace uid tr r assign) := by
  refine ⟨?_, ?_, ?_⟩
  · intro uid tr r assign a b opa opb ha hb hpa hpb
    have key : ∀ (n : Nat) (op : ProcessAI.InsertOp),
        (ProcessAI.processAITrace uid tr r assign)[n]? = some op →
        (n < r.projects.length ∧ op.isProject = true) ∨
        (r.projects.length ≤ n ∧ op.isProject = false) := by
      intro n op h
      unfold ProcessAI.processAITrace at h
      by_cases h2 : n < r.projects.length
      · left
        refine ⟨h2, ?_⟩
        rw [List.getElem?_append,
          if_pos (by rw [List.length_append, List.length_map, List.length_map]; omega)]
            at h
        rw [List.getElem?_append, if_pos (by rw [List.length_map]; omega)] at h
        rw [List.getElem?_map] at h
        cases hq : r.projects[n]? with
        | none => rw [hq] at h; simp at h
        | some q =>
            rw [hq] at h
            simp only [Option.map_some', Option.some.injEq] at h
            subst h
            rfl
      · push_neg at h2
        right
        refine ⟨h2, ?_⟩
        by_cases h3 : n < r.projects.length + r.tasks.length
        · rw [List.getElem?_append,
            if_pos (by rw [List.length_append, List.length_map, List.length_map]; omega)]
              at h
          rw [List.getElem?_append, if_neg (by rw [List.length_map]; omega)] at h
          rw [List.getElem?_map, List.length_map] at h
          cases hq : r.tasks[n - r.projects.length]? with
          | none => rw [hq] at h; simp at h
          | some q =>
              rw [hq] at h
              simp only [Option.map_some', Option.some.injEq] at h
              subst h
              rfl
        · rw [List.getElem?_append,
            if_neg (by rw [List.length_append, List.length_map, List.length_map]; omega)]
              at h
          rw [List.length_append, List.length_map, List.length_map] at h
          generalize n - (r.projects.length + r.tasks.length) = m at h
          rcases m with _ | _ | m2
          · rw [List.getElem?_cons_zero, Option.some.injEq] at h
            subst h
            rfl
          · rw [List.getElem?_cons_succ, List.getElem?_cons_zero,
              Option.some.injEq] at h
            subst h
            rfl
          · rw [List.getElem?_cons_succ, List.getElem?_cons_succ] at h
            simp at h
    have hopab : ∀ op : ProcessAI.InsertOp, op.isProject = true → op.isTask = false := by
      intro op hop
      cases op <;> simp_all [ProcessAI.InsertOp.isProject, ProcessAI.InsertOp.isTask]
    rcases key a opa ha with ⟨hlt, -⟩ | ⟨-, hfalse⟩
    · rcases key b opb hb with ⟨-, hbproj⟩ | ⟨hge, -⟩
      · rw [hopab opb hbproj] at hpb
        exact absurd hpb (by simp)
      · omega
    · rw [hpa] at hfalse
      exact absurd hfalse (by simp)
  · intro uid tr r assign t k p pid ht hnm hp hr hpname huniq
    have hlook : (ProcessAI.buildProjectMap r.projects assign).lookup t.project_name =
        some pid := by
      rw [← hpname]
      exact buildProjectMap_lookup_unique r.projects assign k p pid hp hr
        (fun k2 p2 h2 hn => huniq k2 p2 h2 (hn.trans hpname))
    have hres : ProcessAI.resolveProjectId (ProcessAI.buildProjectMap r.projects assign)
        t = some pid := by
      unfold ProcessAI.resolveProjectId
      rw [if_neg (by simp [hnm])]
      exact hlook
    refine ⟨hres, ?_⟩
    unfold ProcessAI.processAITrace
    rw [List.mem_append]
    left
    rw [List.mem_append]
    right
    exact List.mem_map.mpr ⟨t, ht, by rw [hres]⟩
  · intro uid tr r assign t ht hnone
    have hres : ProcessAI.resolveProjectId (ProcessAI.buildProjectMap r.projects assign)
        t = none := by
      unfold ProcessAI.resolveProjectId
      by_cases he : (t.project_name == "") = true
      · rw [if_pos he]
      · rw [Bool.not_eq_true] at he
        rw [if_neg (by simp [he])]
        exact buildProjectMap_lookup_none t.project_name r.projects assign hnone
    refine ⟨hres, ?_⟩
    unfold ProcessAI.processAITrace
    rw [List.mem_append]
    left
    rw [List.mem_append]
    right
    exact List.mem_map.mpr ⟨t, ht, by rw [hres]⟩

/-- C4 (witness): the amended theorem applied to a concrete batch with one
project ("Viaje", assigned id "id1"), one task naming it, and one task
naming a project absent from the batch. -/
theorem c4_batch_insert_spec_witness :
    (0 : Nat) < 1 ∧
    ProcessAI.resolveProjectId
      (ProcessAI.buildProjectMap
        [{ name := "Viaje", description := "d", status := "active" }] [some "id1"])
      { title := "Reservar", description := "d", priority := "high",
        project_name := "Viaje" } = some "id1" ∧
    ProcessAI.resolveProjectId
      (ProcessAI.buildProjectMap
        [{ name := "Viaje", description := "d", status := "active" }] [some "id1"])
      { title := "Otra", description := "d", priority := "low",
        project_name := "Nada" } = none :=
  ⟨c4_batch_insert_spec.1 "u1" "txt"
    { projects := [{ name := "Viaje", description := "d", status := "active" }],
      tasks := [{ title := "Reservar", description := "d", priority := "high",
                  project_name := "Viaje" },
                { title := "Otra", description := "d", priority := "low",
                  project_name := "Nada" }],
      insights := { dreams := [], difficulties := [], goals := [] } }
    [some "id1"] 0 1
    (ProcessAI.InsertOp.project "u1" "Viaje" "d" "active")
    (ProcessAI.InsertOp.task "u1" (some "id1") "Reservar" "d" "high" "todo")
    (by decide) (by decide) (by decide) (by decide),
   (c4_batch_insert_spec.2.1 "u1" "txt"
    { projects := [{ name := "Viaje", description := "d", status := "active" }],
      tasks := [{ title := "Reservar", description := "d", priority := "high",
                  project_name := "Viaje" },
                { title := "Otra", description := "d", priority := "low",
                  project_name := "Nada" }],
      insights := { dreams := [], difficulties := [], goals := [] } }
    [some "id1"]
    { title := "Reservar", description := "d", priority := "high",
      project_name := "Viaje" } 0
    { name := "Viaje", description := "d", status := "active" } "id1"
    (by decide) (by decide) (by decide) (by decide) (by decide)
    (by
      intro k2 p2 h2 hn
      rcases k2 with _ | k2
      · rfl
      · rw [List.getElem?_cons_succ] at h2
        simp at h2)).1,
   (c4_batch_insert_spec.2.2 "u1" "txt"
    { projects := [{ name := "Viaje", description := "d", status := "active" }],
      tasks := [{ title := "Reservar", description := "d", priority := "high",
                  project_name := "Viaje" },
                { title := "Otra", description := "d", priority := "low",
                  project_name := "Nada" }],
      insights := { dreams := [], difficulties := [], goals := [] } }
    [some "id1"]
    { title := "Otra", description := "d", priority := "low", project_name := "Nada" }
    (by decide) (by decide)).1⟩

/-- C6: completing the front task deletes the task row and then deletes the
project row exactly when the remote count of task rows carrying that
project identifier is zero after the task deletion; with a nonzero
remaining count the project row survives untouched.  The hypothesis states
that the `.single()` lookup by `(user_id, name)` matches exactly one
project row. -/
theorem c6_complete_task_project_deletion (db : FocusSession.DB)
    (uid tid pname : String) (rec : FocusSession.ProjectRow)
    (hrec : db.projects.filter (fun p => p.user_id == uid && p.name == pname) = [rec]) :
    (((db.tasks.filter (fun t => t.id != tid)).filter
        (fun t => t.project_id == some rec.id)).length = 0 →
      rec.id ∉ (FocusSession.completeTaskRemote db uid tid pname).projects.map
        FocusSession.ProjectRow.id) ∧
    (((db.tasks.filter (fun t => t.id != tid)).filter
        (fun t => t.project_id == some rec.id)).length ≠ 0 →
      (FocusSession.completeTaskRemote db uid tid pname).projects = db.projects ∧
      rec.id ∈ db.projects.map FocusSession.ProjectRow.id) ∧
    (FocusSession.completeTaskRemote db uid tid pname).tasks =
      db.tasks.filter (fun t => t.id != tid) := by
  have hmem : rec ∈ db.projects := by
    apply List.mem_of_mem_filter (p := fun p => p.user_id == uid && p.name == pname)
    rw [hrec]
    exact List.mem_singleton_self rec
  refine ⟨?_, ?_, ?_⟩
  · intro h0
    have hred : FocusSession.completeTaskRemote db uid tid pname =
        { projects := db.projects.filter (fun p => p.id != rec.id),
          tasks := db.tasks.filter (fun t => t.id != tid) } := by
      simp only [FocusSession.completeTaskRemote, hrec]
      rw [if_pos (by rw [h0]; rfl)]
    rw [hred]
    intro hcmem
    obtain ⟨p, hpmem, hpid⟩ := List.mem_map.mp hcmem
    have hkeep := (List.mem_filter.mp hpmem).2
    rw [hpid] at hkeep
    simp at hkeep
  · intro hne
    have hred : FocusSession.completeTaskRemote db uid tid pname =
        { projects := db.projects,
          tasks := db.tasks.filter (fun t => t.id != tid) } := by
      simp only [FocusSession.completeTaskRemote, hrec]
      rw [if_neg (by intro hc; exact hne (by simpa using hc))]
    rw [hred]
    exact ⟨rfl, List.mem_map.mpr ⟨rec, hmem, rfl⟩⟩
  · by_cases h0 : ((db.tasks.filter (fun t => t.id != tid)).filter
        (fun t => t.project_id == some rec.id)).length = 0
    · simp only [FocusSession.completeTaskRemote, hrec]
      rw [if_pos (by rw [h0]; rfl)]
    · simp only [FocusSession.completeTaskRemote, hrec]
      rw [if_neg (by intro hc; exact h0 (by simpa using hc))]

/-- C6 (witness): the theorem applied to two concrete stores — one where
the deleted task was the last task of its project (the project row is
deleted) and one where another task remains (the project row survives). -/
theorem c6_complete_task_project_deletion_witness :
    ("prj1" ∉ (FocusSession.completeTaskRemote
      { projects := [{ id := "prj1", user_id := "u1", name := "Viaje" }],
        tasks := [{ id := "t1", user_id := "u1", project_id := some "prj1",
                    status := "todo" }] }
      "u1" "t1" "Viaje").projects.map FocusSession.ProjectRow.id) ∧
    (FocusSession.completeTaskRemote
      { projects := [{ id := "prj1", user_id := "u1", name := "Viaje" }],
        tasks := [{ id := "t1", user_id := "u1", project_id := some "prj1",
                    status := "todo" },
                  { id := "t2", user_id := "u1", project_id := some "prj1",
                    status := "todo" }] }
      "u1" "t1" "Viaje").projects =
      [{ id := "prj1", user_id := "u1", name := "Viaje" }] :=
  ⟨(c6_complete_task_project_deletion
      { projects := [{ id := "prj1", user_id := "u1", name := "Viaje" }],
        tasks := [{ id := "t1", user_id := "u1", project_id := some "prj1",
                    status := "todo" }] }
      "u1" "t1" "Viaje" { id := "prj1", user_id := "u1", name := "Viaje" }
      (by decide)).1 (by decide),
   ((c6_complete_task_project_deletion
      { projects := [{ id := "prj1", user_id := "u1", name := "Viaje" }],
        tasks := [{ id := "t1", user_id := "u1", project_id := some "prj1",
                    status := "todo" },
                  { id := "t2", user_id := "u1", project_id := some "prj1",
                    status := "todo" }] }
      "u1" "t1" "Viaje" { id := "prj1", user_id := "u1", name := "Viaje" }
      (by decide)).2.1 (by decide)).1⟩

end NowApp
